import Mathlib

/-!
Shallow embedding of the scheduling and execution core of
`src/server.ts` (SafeGuard backup manager): the `runBackup` lifecycle,
the once-per-minute cron tick, and the `/api` routes that the verified
claims talk about.  SQLite rows become Lean structures, the two tables
become lists inside a `Store`, and a `better-sqlite3` statement that may
throw is modelled by an explicit fault flag: when the flag is set the
write raises, which in the source transfers control to the enclosing
`catch` block.  Timestamps (`CURRENT_TIMESTAMP`) are abstract `Nat`
clock readings supplied by the caller, and `Math.random() > 0.1` is an
abstract `success : Bool` input.
-/

namespace SafeGuard

/-- One line of the mock per-file report built in `runBackup`
(`src/server.ts`, `mockFiles`): file name, display size, and a per-file
outcome string which the source sets to `"OK"` or `"ERRO"`. -/
structure FileReportEntry where
  name : String
  size : String
  status : String
deriving DecidableEq

/-- The fixed report of `runBackup` (`src/server.ts` lines 121-126):
four entries; the last two carry `"ERRO"` exactly when the overall
success draw was false, the rest are `"OK"`. -/
def mockFiles (success : Bool) : List FileReportEntry :=
  [ { name := "documento_v1.pdf", size := "2.4MB", status := "OK" },
    { name := "planilha_financeira.xlsx", size := "1.1MB", status := "OK" },
    { name := "foto_backup.jpg", size := "4.8MB",
      status := if success then "OK" else "ERRO" },
    { name := "projeto_final.zip", size := "156MB",
      status := if success then "OK" else "ERRO" } ]

/-- A row of the `backup_tasks` table (`src/server.ts` lines 16-28).
`schedule_days` is the raw TEXT column holding a JSON-encoded weekday
array (nullable), `schedule_time` the nullable "HH:MM" TEXT column,
`last_run` the nullable timestamp column (abstract clock value), and
`status` the TEXT status, `"IDLE"` or `"RUNNING"`. -/
structure Task where
  id : Nat
  name : String
  source_path : String
  destination_path : String
  destination_type : String
  backup_type : String
  schedule_days : Option String
  schedule_time : Option String
  last_run : Option Nat
  status : String
  email_notifications : Bool
deriving DecidableEq

/-- A row of the append-only `backup_logs` table (`src/server.ts`
lines 30-38): AUTOINCREMENT id, owning task id, creation timestamp,
event status TEXT (`"INICIADO"`, `"SUCESSO"` or `"FALHA"`), message,
and the nullable JSON report column. -/
structure LogEntry where
  id : Nat
  task_id : Nat
  timestamp : Nat
  status : String
  message : String
  report : Option (List FileReportEntry)
deriving DecidableEq

/-- The persistent state: the two SQLite tables plus the next
AUTOINCREMENT value for `backup_logs.id`. -/
structure Store where
  tasks : List Task
  logs : List LogEntry
  nextLogId : Nat
deriving DecidableEq

/-- `UPDATE backup_tasks SET status = st WHERE id = ?`. -/
def updateTaskStatus (s : Store) (id : Nat) (st : String) : Store :=
  { s with tasks :=
      s.tasks.map (fun t => if t.id = id then { t with status := st } else t) }

/-- `UPDATE backup_tasks SET status = "IDLE", last_run = CURRENT_TIMESTAMP
WHERE id = ?` (`src/server.ts` line 136, the source writes the status in
single quotes), with the clock reading `now`. -/
def setIdleAndLastRun (s : Store) (id : Nat) (now : Nat) : Store :=
  { s with tasks :=
      s.tasks.map (fun t =>
        if t.id = id then { t with status := "IDLE", last_run := some now }
        else t) }

/-- `INSERT INTO backup_logs (task_id, status, message[, report])`:
appends a fresh row with the next AUTOINCREMENT id and the clock
reading `ts` as its `CURRENT_TIMESTAMP`. -/
def insertLog (s : Store) (taskId ts : Nat) (st msg : String)
    (rep : Option (List FileReportEntry)) : Store :=
  { s with
    logs := s.logs ++
      [{ id := s.nextLogId, task_id := taskId, timestamp := ts,
         status := st, message := msg, report := rep }],
    nextLogId := s.nextLogId + 1 }

/-- Fault injection for the five store writes `runBackup` performs: a
set flag means that `better-sqlite3` statement throws when executed
(its state change does not happen and control moves to the enclosing
`catch`).  `failCleanup` is the write in the `catch` block itself. -/
structure Faults where
  failSetRunning : Bool
  failInsertStarted : Bool
  failInsertTerminal : Bool
  failSetIdle : Bool
  failCleanup : Bool
deriving DecidableEq

/-- The fault-free execution: no store write throws. -/
def noFaults : Faults :=
  { failSetRunning := false, failInsertStarted := false,
    failInsertTerminal := false, failSetIdle := false,
    failCleanup := false }

/-- The store writes `runBackup` can attempt, recorded in execution
order so that "the engine attempts to reset the status" is a statement
about the run, independent of whether the write succeeded. -/
inductive DbOp where
  | setRunning (id : Nat)
  | insertStarted (id : Nat)
  | insertTerminal (id : Nat)
  | setIdleLastRun (id : Nat)
  | cleanupIdle (id : Nat)
deriving DecidableEq

/-- The `catch` block of `runBackup` (`src/server.ts` lines 144-149):
attempt `UPDATE backup_tasks SET status = "IDLE" WHERE id = ?`; a
secondary throw is swallowed by the inner empty `catch`, leaving the
store as it was. -/
def cleanupStore (s : Store) (id : Nat) (f : Faults) : Store :=
  if f.failCleanup then s else updateTaskStatus s id "IDLE"

/-- `runBackup(task)` (`src/server.ts` lines 95-150), returning the
store after the call finishes together with the ordered trace of
attempted store writes.  `success` is the `Math.random() > 0.1` draw;
`t1`, `t2`, `t3` are the `CURRENT_TIMESTAMP` readings of the STARTED
insert, the terminal insert and the final status update (the caller
supplies a monotone clock); `f` says which writes throw.  A throw at
any step skips the rest of the `try` block and runs the `catch`
cleanup; notifications are `console.log` only and have no store
effect. -/
def runBackup (s : Store) (task : Task) (success : Bool)
    (t1 t2 t3 : Nat) (f : Faults) : Store × List DbOp :=
  if f.failSetRunning then
    (cleanupStore s task.id f, [DbOp.setRunning task.id, DbOp.cleanupIdle task.id])
  else
    let s1 := updateTaskStatus s task.id "RUNNING"
    if f.failInsertStarted then
      (cleanupStore s1 task.id f,
       [DbOp.setRunning task.id, DbOp.insertStarted task.id,
        DbOp.cleanupIdle task.id])
    else
      let s2 := insertLog s1 task.id t1 "INICIADO"
        ("Processo de backup iniciado para " ++ task.source_path) none
      let st := if success then "SUCESSO" else "FALHA"
      let msg := if success then
          "Backup concluído com sucesso para " ++ task.destination_path
        else
          "Falha ao acessar " ++ task.destination_type ++ " em " ++
            task.destination_path
      if f.failInsertTerminal then
        (cleanupStore s2 task.id f,
         [DbOp.setRunning task.id, DbOp.insertStarted task.id,
          DbOp.insertTerminal task.id, DbOp.cleanupIdle task.id])
      else
        let s3 := insertLog s2 task.id t2 st msg (some (mockFiles success))
        if f.failSetIdle then
          (cleanupStore s3 task.id f,
           [DbOp.setRunning task.id, DbOp.insertStarted task.id,
            DbOp.insertTerminal task.id, DbOp.setIdleLastRun task.id,
            DbOp.cleanupIdle task.id])
        else
          (setIdleAndLastRun s3 task.id t3,
           [DbOp.setRunning task.id, DbOp.insertStarted task.id,
            DbOp.insertTerminal task.id, DbOp.setIdleLastRun task.id])

/-- JSON whitespace, as `JSON.parse` skips it. -/
def skipWs : List Char → List Char
  | c :: rest =>
      if c = ' ' ∨ c = '\t' ∨ c = '\n' ∨ c = '\r' then skipWs rest
      else c :: rest
  | [] => []

/-- Scan a JSON string body up to its closing quote (the opening quote
already consumed), returning the characters and the rest of the input.
Escape sequences are rejected: the weekday names the application stores
never contain them, so a backslash is treated as a malformed value. -/
def scanString : List Char → Option (List Char × List Char)
  | [] => none
  | c :: rest =>
      if c = '"' then some ([], rest)
      else if c = '\\' then none
      else
        match scanString rest with
        | some (body, r) => some (c :: body, r)
        | none => none

/-- Parse the items of a non-empty JSON string array, positioned just
after the opening bracket (fuel bounds the recursion by input length). -/
def parseArrayAux : Nat → List Char → Option (List String × List Char)
  | 0, _ => none
  | fuel + 1, cs =>
      match skipWs cs with
      | '"' :: rest =>
          match scanString rest with
          | none => none
          | some (body, r1) =>
              match skipWs r1 with
              | ',' :: r2 =>
                  match parseArrayAux fuel r2 with
                  | some (items, r3) => some (String.mk body :: items, r3)
                  | none => none
              | ']' :: r2 => some ([String.mk body], r2)
              | _ => none
      | _ => none

/-- `JSON.parse` restricted to what the scheduler needs: a JSON array
of (escape-free) strings, with nothing but whitespace around it.  Any
other input is `none`, modelling a tick-aborting throw: `JSON.parse`
itself throws on invalid JSON, and on a parsed non-array value the
subsequent `days.includes` call throws a `TypeError` (the exotic cases
where a non-array parse would not throw, such as a top-level JSON
string, are conservatively also mapped to `none`; the application only
ever stores `JSON.stringify` of a weekday array). -/
def parseDayList (str : String) : Option (List String) :=
  match skipWs str.toList with
  | '[' :: rest =>
      match skipWs rest with
      | ']' :: tail => if skipWs tail = [] then some [] else none
      | _ =>
          match parseArrayAux (rest.length + 1) rest with
          | some (items, tail) =>
              if skipWs tail = [] then some items else none
          | none => none
  | _ => none

/-- `JSON.parse(task.schedule_days || "[]")` (`src/server.ts`
line 161): a NULL or empty column falls back to the literal `"[]"`,
which parses to the empty day list. -/
def parseDays (raw : Option String) : Option (List String) :=
  match raw with
  | none => some []
  | some str => if str = "" then some [] else parseDayList str

/-- The due test of the scheduler body (`src/server.ts` line 162):
`days.includes(currentDay) && task.schedule_time === currentTime`,
with a task whose schedule fails to parse counted as not due. -/
def isDue (t : Task) (day time : String) : Bool :=
  match parseDays t.schedule_days with
  | some days => days.contains day && (t.schedule_time == some time)
  | none => false

/-- The `tasks.forEach` loop of the cron tick (`src/server.ts`
lines 160-165), in iteration order: the `schedule_days` of each task is
parsed and, when the task is due, it is dispatched to `runBackup`
(fire-and-forget).  A parse throw propagates out of `forEach`, so a
malformed task ends the loop: the result is the dispatch list up to
that point together with an aborted flag. -/
def evalTasks : List Task → String → String → List Task × Bool
  | [], _, _ => ([], false)
  | t :: rest, day, time =>
      match parseDays t.schedule_days with
      | none => ([], true)
      | some days =>
          let r := evalTasks rest day time
          if days.contains day && (t.schedule_time == some time) then
            (t :: r.1, r.2)
          else r

/-- The tasks a tick at wall-clock `(day, time)` hands to `runBackup`
(`src/server.ts` lines 153-169, the `cron.schedule` callback). -/
def tickDispatch (s : Store) (day time : String) : List Task :=
  (evalTasks s.tasks day time).1

/-- The whole tick callback including its `try`/`catch`: when the
`SELECT * FROM backup_tasks` read throws (`readFails`), the catch
swallows the error and no task is evaluated or dispatched. -/
def cronTick (s : Store) (day time : String) (readFails : Bool) : List Task :=
  if readFails then [] else tickDispatch s day time

/-- An HTTP reply as far as the claims observe it: the status code and
whether the JSON body is the `{success:true}` success body. -/
structure HttpReply where
  code : Nat
  success : Bool
deriving DecidableEq

/-- `SELECT * FROM backup_tasks WHERE id = ?` (first match). -/
def findTask (s : Store) (id : Nat) : Option Task :=
  s.tasks.find? (fun t => t.id == id)

/-- `POST /api/tasks/:id/run` (`src/server.ts` lines 230-243): look the
task up; on a hit, dispatch `runBackup` (fire-and-forget) and answer
`{success:true}`; on a miss answer 404 with an error body and touch
nothing.  The returned store is the state once the dispatched run (with
the given draw, clock readings and faults) has finished. -/
def manualRunRoute (s : Store) (id : Nat) (success : Bool)
    (t1 t2 t3 : Nat) (f : Faults) : HttpReply × Store :=
  match findTask s id with
  | some t => ({ code := 200, success := true },
               (runBackup s t success t1 t2 t3 f).1)
  | none => ({ code := 404, success := false }, s)

/-- `DELETE /api/tasks/:id` (`src/server.ts` lines 205-213).
`better-sqlite3` compiles its bundled SQLite with
`SQLITE_DEFAULT_FOREIGN_KEYS=1`, so the
`FOREIGN KEY(task_id) REFERENCES backup_tasks(id)` constraint of
`backup_logs` is enforced and the schema names no `ON DELETE` action:
when the DELETE would remove a task row still referenced by a log
row, the statement throws `FOREIGN KEY constraint failed`, nothing is
removed, and the catch answers HTTP 500 with an error body.
Otherwise the DELETE succeeds — a zero-row no-op when no task matches
— log rows are never touched (no cascade), and the handler answers
`{success:true}`. -/
def deleteRoute (s : Store) (id : Nat) : HttpReply × Store :=
  if (s.tasks.any (fun t => t.id == id)) && (s.logs.any (fun l => l.task_id == id)) then
    ({ code := 500, success := false }, s)
  else
    ({ code := 200, success := true },
     { s with tasks := s.tasks.filter (fun t => !(t.id == id)) })

/-- The `JOIN backup_tasks t ON l.task_id = t.id` membership test. -/
def hasTask (s : Store) (l : LogEntry) : Bool :=
  s.tasks.any (fun t => t.id == l.task_id)

/-- The `t.name as task_name` column of the join for a given owning
task id (the joined row always has a matching task). -/
def taskName (s : Store) (id : Nat) : String :=
  match findTask s id with
  | some t => t.name
  | none => ""

/-- One row of the `GET /api/logs` response: a log entry joined with
the name of its owning task. -/
structure JoinedLog where
  entry : LogEntry
  task_name : String
deriving DecidableEq

/-- `ORDER BY l.timestamp DESC`: entry `a` may come before entry `b`
when `b` is no newer than `a`. -/
def newestFirst (a b : LogEntry) : Prop := b.timestamp ≤ a.timestamp

instance : DecidableRel newestFirst := fun a b => Nat.decLe b.timestamp a.timestamp

instance : IsTotal LogEntry newestFirst :=
  ⟨fun a b => Nat.le_total b.timestamp a.timestamp⟩

instance : IsTrans LogEntry newestFirst :=
  ⟨fun _ _ _ hab hbc => Nat.le_trans hbc hab⟩

/-- `GET /api/logs` (`src/server.ts` lines 215-228): inner-join the
log rows with their still-existing tasks, order by timestamp
descending (a sort models the unspecified tie order of the database),
keep the first 50, and attach the name of the owning task of each
entry. -/
def getLogs (s : Store) : List JoinedLog :=
  (((s.logs.filter (fun l => hasTask s l)).insertionSort newestFirst).take 50).map
    (fun l => { entry := l, task_name := taskName s l.task_id })

/-! Concrete inputs for witnesses and counterexamples. -/

/-- A concrete task with fixed display fields: only the id and the two
schedule columns vary between the concrete inputs below. -/
def mkTask (i : Nat) (days tm : Option String) : Task :=
  { id := i, name := "tarefa", source_path := "/dados",
    destination_path := "/backup", destination_type := "NAS",
    backup_type := "FULL", schedule_days := days, schedule_time := tm,
    last_run := none, status := "IDLE", email_notifications := false }

/-! Helper lemmas about the store operations. -/

/-- The STARTED row a fault-free `runBackup` inserts; checked against
`runBackup` definitionally in `runBackup_noFaults_logs`. -/
def startedEntry (s : Store) (t : Task) (t1 : Nat) : LogEntry :=
  { id := s.nextLogId, task_id := t.id, timestamp := t1,
    status := "INICIADO",
    message := "Processo de backup iniciado para " ++ t.source_path,
    report := none }

/-- The terminal row a fault-free `runBackup` inserts; checked against
`runBackup` definitionally in `runBackup_noFaults_logs`. -/
def terminalEntry (s : Store) (t : Task) (success : Bool) (t2 : Nat) : LogEntry :=
  { id := s.nextLogId + 1, task_id := t.id, timestamp := t2,
    status := if success then "SUCESSO" else "FALHA",
    message :=
      if success then
        "Backup concluído com sucesso para " ++ t.destination_path
      else
        "Falha ao acessar " ++ t.destination_type ++ " em " ++
          t.destination_path,
    report := some (mockFiles success) }

/-- A fault-free run appends exactly the STARTED row and the terminal
row, in that order, to the log table. -/
theorem runBackup_noFaults_logs (s : Store) (t : Task) (success : Bool)
    (t1 t2 t3 : Nat) :
    (runBackup s t success t1 t2 t3 noFaults).1.logs =
      s.logs ++ [startedEntry s t t1, terminalEntry s t success t2] := by
  show (s.logs ++ [startedEntry s t t1]) ++ [terminalEntry s t success t2] = _
  rw [List.append_assoc]
  rfl

/-- A fault-free run maps every task row with the matching id to the
same row with status IDLE and the final clock reading as last run. -/
theorem runBackup_noFaults_tasks (s : Store) (t : Task) (success : Bool)
    (t1 t2 t3 : Nat) :
    (runBackup s t success t1 t2 t3 noFaults).1.tasks =
      s.tasks.map (fun u =>
        if u.id = t.id then { u with status := "IDLE", last_run := some t3 }
        else u) := by
  show ((s.tasks.map _).map _) = _
  rw [List.map_map]
  refine List.map_congr_left (fun u _ => ?_)
  by_cases h : u.id = t.id <;> simp [Function.comp, h]

/-- Any row of `updateTaskStatus s id st` whose id matches carries the
written status. -/
theorem status_of_mem_updateTaskStatus {s : Store} {id : Nat} {st : String}
    {u : Task} (hu : u ∈ (updateTaskStatus s id st).tasks)
    (hid : u.id = id) : u.status = st := by
  rw [updateTaskStatus] at hu
  simp only [List.mem_map] at hu
  obtain ⟨v, _, rfl⟩ := hu
  by_cases hv : v.id = id
  · simp [hv]
  · simp only [hv, if_false] at hid

/-- Any row of `setIdleAndLastRun s id now` whose id matches is IDLE
with `now` as its last run. -/
theorem status_of_mem_setIdleAndLastRun {s : Store} {id now : Nat}
    {u : Task} (hu : u ∈ (setIdleAndLastRun s id now).tasks)
    (hid : u.id = id) : u.status = "IDLE" ∧ u.last_run = some now := by
  rw [setIdleAndLastRun] at hu
  simp only [List.mem_map] at hu
  obtain ⟨v, _, rfl⟩ := hu
  by_cases hv : v.id = id
  · simp [hv]
  · simp only [hv, if_false] at hid

/-! Claim C1. -/

/-- Claim C1 (confirmed): after a completed `runBackup(T)` call in
which every store write succeeds — whether the success draw came out
true or false — every row of the task table with the id of `T` has
status IDLE and a last-run timestamp equal to the final clock reading
`t3`, which is at or after the start-of-run reading `t1`; and `T`
still has a row.  (The clock readings `t1 ≤ t3` are the
`CURRENT_TIMESTAMP` values of the STARTED insert and of the final
status update.) -/
theorem runBackup_completed_idle_lastRun (s : Store) (t : Task)
    (success : Bool) (t1 t2 t3 : Nat) (hmem : t ∈ s.tasks)
    (hclock : t1 ≤ t3) :
    (∀ u ∈ (runBackup s t success t1 t2 t3 noFaults).1.tasks,
      u.id = t.id → u.status = "IDLE" ∧ u.last_run = some t3 ∧ t1 ≤ t3) ∧
    (∃ u ∈ (runBackup s t success t1 t2 t3 noFaults).1.tasks, u.id = t.id) := by
  rw [runBackup_noFaults_tasks]
  constructor
  · intro u hu hid
    simp only [List.mem_map] at hu
    obtain ⟨v, _, rfl⟩ := hu
    by_cases hv : v.id = t.id
    · exact ⟨by simp [hv], by simp [hv], hclock⟩
    · simp only [hv, if_false] at hid
  · refine ⟨(fun u =>
        if u.id = t.id then { u with status := "IDLE", last_run := some t3 }
        else u) t, List.mem_map_of_mem _ hmem, ?_⟩
    by_cases hv : t.id = t.id <;> simp [hv]

/-- Claim C1 witness: the theorem applied to a one-task store with the
run clock readings 5 and 9. -/
theorem runBackup_completed_idle_lastRun_witness :
    (∀ u ∈ (runBackup { tasks := [mkTask 1 none none], logs := [], nextLogId := 1 }
        (mkTask 1 none none) true 5 7 9 noFaults).1.tasks,
      u.id = (mkTask 1 none none).id →
        u.status = "IDLE" ∧ u.last_run = some 9 ∧ 5 ≤ 9) ∧
    (∃ u ∈ (runBackup { tasks := [mkTask 1 none none], logs := [], nextLogId := 1 }
        (mkTask 1 none none) true 5 7 9 noFaults).1.tasks,
      u.id = (mkTask 1 none none).id) :=
  runBackup_completed_idle_lastRun
    { tasks := [mkTask 1 none none], logs := [], nextLogId := 1 }
    (mkTask 1 none none) true 5 7 9 (by decide) (by decide)

/-! Claim C2. -/

/-- Claim C2 counterexample: on the execution path where the terminal
log insert throws (all other writes succeed), the completed run has
appended exactly one STARTED entry and no terminal entry at all, so
the claimed invariant does not hold on every path with a throwing
store write. -/
theorem runBackup_throwingTerminalWrite_cex :
    ((runBackup { tasks := [mkTask 1 none none], logs := [], nextLogId := 1 }
        (mkTask 1 none none) true 0 1 2
        { failSetRunning := false, failInsertStarted := false,
          failInsertTerminal := true, failSetIdle := false,
          failCleanup := false }).1.logs.map (fun l => l.status)) =
      ["INICIADO"] := by
  rfl

/-- Claim C2 as amended (the fault clause removed): a run of
`runBackup` in which no store write throws appends exactly two log
entries — first one STARTED entry, then one terminal entry which is
SUCCEEDED exactly when the draw succeeded and FAILED exactly when it
failed (so SUCCEEDED xor FAILED), is not a second STARTED entry, and
strictly follows the STARTED entry (larger AUTOINCREMENT id, later
list position). -/
theorem runBackup_noFaults_startedThenTerminal (s : Store) (t : Task)
    (success : Bool) (t1 t2 t3 : Nat) :
    ∃ st te,
      (runBackup s t success t1 t2 t3 noFaults).1.logs = s.logs ++ [st, te] ∧
      st.status = "INICIADO" ∧
      (te.status = "SUCESSO" ↔ success = true) ∧
      (te.status = "FALHA" ↔ success = false) ∧
      ¬ te.status = "INICIADO" ∧
      st.id < te.id := by
  refine ⟨startedEntry s t t1, terminalEntry s t success t2,
    runBackup_noFaults_logs s t success t1 t2 t3, rfl, ?_, ?_, ?_,
    Nat.lt_succ_self _⟩ <;>
    cases success <;> simp [terminalEntry]

/-! Claim C8. -/

/-- Claim C8 (confirmed): the report attached to the terminal entry of
a fault-free run is the fixed four-entry sequence `mockFiles`: it is
non-empty, every per-file outcome is OK or ERRO, a failed draw marks
at least one entry ERRO, and a successful draw marks none ERRO (the
STARTED entry carries no report). -/
theorem runBackup_terminalReport_shape (s : Store) (t : Task)
    (success : Bool) (t1 t2 t3 : Nat) :
    ∃ st te,
      (runBackup s t success t1 t2 t3 noFaults).1.logs = s.logs ++ [st, te] ∧
      st.report = none ∧
      te.report = some (mockFiles success) ∧
      ¬ mockFiles success = [] ∧
      (∀ e ∈ mockFiles success, e.status = "OK" ∨ e.status = "ERRO") ∧
      (success = false → ∃ e ∈ mockFiles success, e.status = "ERRO") ∧
      (success = true → ∀ e ∈ mockFiles success, ¬ e.status = "ERRO") := by
  refine ⟨startedEntry s t t1, terminalEntry s t success t2,
    runBackup_noFaults_logs s t success t1 t2 t3, rfl, rfl, ?_, ?_, ?_, ?_⟩ <;>
    cases success <;> simp [mockFiles]

/-! Claim C5. -/

/-- Claim C5 counterexample: when the final status update throws and
the cleanup update in the catch block then throws as well (the
secondary error the source swallows), the completed run leaves the
task with status RUNNING — an error condition after which the task is
stuck RUNNING until some later run resets it. -/
theorem runBackup_doubleFault_stuckRunning_cex :
    ((runBackup { tasks := [mkTask 3 none none], logs := [], nextLogId := 1 }
        (mkTask 3 none none) true 0 1 2
        { failSetRunning := false, failInsertStarted := false,
          failInsertTerminal := false, failSetIdle := true,
          failCleanup := true }).1.tasks.map (fun u => u.status)) =
      ["RUNNING"] := by
  rfl

/-- Claim C5 as amended: on every execution path of `runBackup` on
which a store write of the try block throws, the engine attempts the
IDLE reset of the catch block (the attempt is in the trace of store
writes even when it throws, and its secondary error is swallowed); and
whenever that cleanup write itself does not throw, no row with the id
of the task is left RUNNING — every such row ends with status IDLE.  A
task can therefore be left RUNNING only when the cleanup write itself
also throws. -/
theorem runBackup_cleanup_attempted_idle (s : Store) (t : Task)
    (success : Bool) (t1 t2 t3 : Nat) (f : Faults)
    (hc : f.failCleanup = false) :
    (∀ u ∈ (runBackup s t success t1 t2 t3 f).1.tasks,
      u.id = t.id → u.status = "IDLE") ∧
    ((f.failSetRunning || f.failInsertStarted || f.failInsertTerminal ||
        f.failSetIdle) = true →
      DbOp.cleanupIdle t.id ∈ (runBackup s t success t1 t2 t3 f).2) := by
  obtain ⟨a, b, c, d, e⟩ := f
  simp only at hc
  subst hc
  cases a <;> cases b <;> cases c <;> cases d <;>
    refine ⟨fun u hu hid => ?_, fun hf => ?_⟩ <;>
    first
      | exact (status_of_mem_setIdleAndLastRun hu hid).1
      | exact status_of_mem_updateTaskStatus hu hid
      | (simp [runBackup]; done)
      | simp at hf

/-- Claim C5 witness: the theorem applied to a run whose terminal log
insert throws; the cleanup write succeeds and the task is IDLE. -/
theorem runBackup_cleanup_attempted_idle_witness :
    (∀ u ∈ (runBackup { tasks := [mkTask 3 none none], logs := [], nextLogId := 1 }
        (mkTask 3 none none) true 0 1 2
        { failSetRunning := false, failInsertStarted := false,
          failInsertTerminal := true, failSetIdle := false,
          failCleanup := false }).1.tasks,
      u.id = (mkTask 3 none none).id → u.status = "IDLE") ∧
    ((false || false || true || false) = true →
      DbOp.cleanupIdle (mkTask 3 none none).id ∈
        (runBackup { tasks := [mkTask 3 none none], logs := [], nextLogId := 1 }
          (mkTask 3 none none) true 0 1 2
          { failSetRunning := false, failInsertStarted := false,
            failInsertTerminal := true, failSetIdle := false,
            failCleanup := false }).2) :=
  runBackup_cleanup_attempted_idle
    { tasks := [mkTask 3 none none], logs := [], nextLogId := 1 }
    (mkTask 3 none none) true 0 1 2
    { failSetRunning := false, failInsertStarted := false,
      failInsertTerminal := true, failSetIdle := false,
      failCleanup := false } rfl

/-! Claims C3 and C4: the trigger evaluator. -/

/-- One step of the `forEach` loop, written out for rewriting. -/
theorem evalTasks_cons (t : Task) (rest : List Task) (day time : String) :
    evalTasks (t :: rest) day time =
      match parseDays t.schedule_days with
      | none => ([], true)
      | some days =>
          if days.contains day && (t.schedule_time == some time) then
            (t :: (evalTasks rest day time).1, (evalTasks rest day time).2)
          else evalTasks rest day time :=
  rfl

/-- Dispatch membership for a tick whose stored schedules all parse:
a task is handed to `runBackup` exactly when it is stored and due. -/
theorem mem_evalTasks_iff {l : List Task} {day time : String}
    (hwf : ∀ v ∈ l, (parseDays v.schedule_days).isSome = true) (u : Task) :
    u ∈ (evalTasks l day time).1 ↔ u ∈ l ∧ isDue u day time = true := by
  induction l with
  | nil => simp [evalTasks]
  | cons t rest ih =>
      obtain ⟨days, hdays⟩ :=
        Option.isSome_iff_exists.mp (hwf t (List.mem_cons_self t rest))
      have hrest := fun v hv => hwf v (List.mem_cons_of_mem t hv)
      have hdt : isDue t day time =
          (days.contains day && (t.schedule_time == some time)) := by
        rw [isDue, hdays]
      have hstep := evalTasks_cons t rest day time
      simp only [hdays] at hstep
      rw [hstep]
      cases hdue : (days.contains day && (t.schedule_time == some time)) with
      | true =>
          have hdtt : isDue t day time = true := by rw [hdt, hdue]
          rw [if_pos rfl]
          simp only [List.mem_cons, ih hrest]
          constructor
          · rintro (rfl | ⟨hm, hd⟩)
            · exact ⟨Or.inl rfl, hdtt⟩
            · exact ⟨Or.inr hm, hd⟩
          · rintro ⟨rfl | hm, hd⟩
            · exact Or.inl rfl
            · exact Or.inr ⟨hm, hd⟩
      | false =>
          have hdtf : isDue t day time = false := by rw [hdt, hdue]
          rw [if_neg (by decide)]
          simp only [List.mem_cons, ih hrest]
          constructor
          · rintro ⟨hm, hd⟩
            exact ⟨Or.inr hm, hd⟩
          · rintro ⟨rfl | hm, hd⟩
            · rw [hdtf] at hd
              exact absurd hd (by decide)
            · exact ⟨hm, hd⟩

/-- Claim C3 as amended: provided every stored schedule parses, a tick
at wall clock `(day, time)` dispatches a task exactly when the parsed
weekday list of that task contains `day` and its schedule time equals
`time` as a string; without that proviso a due task can be skipped
(see the counterexample: a malformed task earlier in the table aborts
the loop). -/
theorem tick_selects_iff_due (s : Store) (day time : String) (u : Task)
    (hwf : ∀ v ∈ s.tasks, (parseDays v.schedule_days).isSome = true) :
    u ∈ tickDispatch s day time ↔ u ∈ s.tasks ∧ isDue u day time = true :=
  mem_evalTasks_iff hwf u

/-- Concrete scheduler inputs for the claim C3 counterexample: the
first stored task has a schedule column that is not valid JSON, the
second is due at Monday 09:00. -/
def badTaskC3 : Task := mkTask 1 (some "segunda 09h") (some "09:00")

/-- The due task the claim C3 counterexample expects to be dispatched. -/
def dueTaskC3 : Task := mkTask 2 (some "[\"Monday\"]") (some "09:00")

/-- The store of the claim C3 counterexample. -/
def storeC3 : Store := { tasks := [badTaskC3, dueTaskC3], logs := [], nextLogId := 1 }

/-- Claim C3 counterexample: `dueTaskC3` is stored, the current
weekday Monday is in its day set and its schedule time equals the
current 09:00 tick exactly, yet the tick dispatches nothing: parsing
the malformed first task throws inside `forEach` and aborts the loop,
so the stated iff fails at this input. -/
theorem tick_dueTaskSkipped_cex :
    isDue dueTaskC3 "Monday" "09:00" = true ∧
    dueTaskC3 ∈ storeC3.tasks ∧
    tickDispatch storeC3 "Monday" "09:00" = [] := by
  refine ⟨by decide, by decide, by decide⟩

/-- A well-formed task due at Friday 22:15, for the claim C3 witness. -/
def wTaskC3 : Task := mkTask 7 (some "[\"Friday\"]") (some "22:15")

/-- The one-task store of the claim C3 witness. -/
def wStoreC3 : Store := { tasks := [wTaskC3], logs := [], nextLogId := 1 }

/-- Claim C3 witness: the amended iff applied to a one-task store at
the tick its schedule names. -/
theorem tick_selects_iff_due_witness :
    wTaskC3 ∈ tickDispatch wStoreC3 "Friday" "22:15" ↔
      wTaskC3 ∈ wStoreC3.tasks ∧ isDue wTaskC3 "Friday" "22:15" = true :=
  tick_selects_iff_due wStoreC3 "Friday" "22:15" wTaskC3 (by decide)

/-- The evaluator on a task list whose first malformed entry sits
after a well-formed prefix: the due tasks of the prefix are
dispatched, the loop then aborts, and nothing after the malformed
entry is evaluated. -/
theorem evalTasks_append_malformed (pre post : List Task) (bad : Task)
    (day time : String)
    (hpre : ∀ v ∈ pre, (parseDays v.schedule_days).isSome = true)
    (hbad : parseDays bad.schedule_days = none) :
    evalTasks (pre ++ bad :: post) day time =
      (pre.filter (fun v => isDue v day time), true) := by
  induction pre with
  | nil => simp [evalTasks, hbad]
  | cons t rest ih =>
      obtain ⟨days, hdays⟩ :=
        Option.isSome_iff_exists.mp (hpre t (List.mem_cons_self t rest))
      have hrest := fun v hv => hpre v (List.mem_cons_of_mem t hv)
      have hdt : isDue t day time =
          (days.contains day && (t.schedule_time == some time)) := by
        rw [isDue, hdays]
      have hstep := evalTasks_cons t (rest ++ bad :: post) day time
      simp only [hdays] at hstep
      rw [List.cons_append, hstep, ih hrest, List.filter_cons, hdt]
      cases hdue : (days.contains day && (t.schedule_time == some time)) with
      | true => rw [if_pos rfl, if_pos rfl]
      | false => rw [if_neg (by decide), if_neg (by decide)]

/-- Claim C4 as amended: a throwing Task Store read aborts the whole
tick with no task evaluated (the error is caught and logged outside
the loop, so the tick loop itself survives); and a malformed schedule
on one stored task aborts the evaluation of every task after it in
table order, while the tasks before it are still evaluated and, if
due, dispatched. -/
theorem tick_malformed_aborts_rest (s : Store) (pre post : List Task)
    (bad : Task) (day time : String)
    (hs : s.tasks = pre ++ bad :: post)
    (hpre : ∀ v ∈ pre, (parseDays v.schedule_days).isSome = true)
    (hbad : parseDays bad.schedule_days = none) :
    tickDispatch s day time = pre.filter (fun v => isDue v day time) ∧
    cronTick s day time true = [] := by
  refine ⟨?_, rfl⟩
  rw [tickDispatch, hs, evalTasks_append_malformed pre post bad day time hpre hbad]

/-- Concrete scheduler inputs for the claim C4 counterexample: a task
with a corrupted schedule column stored before a task due at Tuesday
10:30. -/
def badTaskC4 : Task := mkTask 4 (some "dias corrompidos") (some "10:30")

/-- The due task the claim C4 counterexample expects to be evaluated. -/
def dueTaskC4 : Task := mkTask 5 (some "[\"Tuesday\"]") (some "10:30")

/-- The store of the claim C4 counterexample. -/
def storeC4 : Store := { tasks := [badTaskC4, dueTaskC4], logs := [], nextLogId := 1 }

/-- Claim C4 counterexample: the second stored task is due at the
Tuesday 10:30 tick, but the malformed first task aborts the loop and
the second task is never evaluated or dispatched — the fault of one
task does abort evaluation of the others. -/
theorem tick_malformed_abortsOthers_cex :
    tickDispatch storeC4 "Tuesday" "10:30" = [] ∧
    isDue dueTaskC4 "Tuesday" "10:30" = true ∧
    dueTaskC4 ∈ storeC4.tasks := by
  refine ⟨by decide, by decide, by decide⟩

/-- A well-formed task due at Monday 08:00, for the claim C4 witness. -/
def wGoodC4 : Task := mkTask 8 (some "[\"Monday\"]") (some "08:00")

/-- A task with a malformed schedule column, for the claim C4 witness. -/
def wBadC4 : Task := mkTask 9 (some "js?") (some "08:00")

/-- The two-task store of the claim C4 witness: the well-formed due
task first, the malformed one after it. -/
def wStoreC4 : Store := { tasks := [wGoodC4] ++ wBadC4 :: [], logs := [], nextLogId := 1 }

/-- Claim C4 witness: the amended theorem applied to a store holding
one well-formed due task followed by one malformed task: the due
prefix is dispatched, a read failure dispatches nothing. -/
theorem tick_malformed_aborts_rest_witness :
    tickDispatch wStoreC4 "Monday" "08:00" =
      List.filter (fun v => isDue v "Monday" "08:00") [wGoodC4] ∧
    cronTick wStoreC4 "Monday" "08:00" true = [] :=
  tick_malformed_aborts_rest wStoreC4 [wGoodC4] [] wBadC4 "Monday" "08:00" rfl
    (by decide) (by decide)

/-! Claims C6 and C7: routes on an unknown task id. -/

/-- With no stored task carrying the requested id, the lookup of the
manual-run route misses. -/
theorem findTask_eq_none {s : Store} {id : Nat}
    (h : ∀ t ∈ s.tasks, ¬ t.id = id) : findTask s id = none := by
  rw [findTask, List.find?_eq_none]
  intro x hx
  simpa using h x hx

/-- Claim C6 (confirmed): a manual run request whose id matches no
stored task answers 404 with an error body and leaves the whole store
— in particular the log table — exactly as it was: `runBackup` is
never dispatched and no log entry is appended. -/
theorem manualRun_unknownId_noEffect (s : Store) (id : Nat)
    (success : Bool) (t1 t2 t3 : Nat) (f : Faults)
    (h : ∀ t ∈ s.tasks, ¬ t.id = id) :
    (manualRunRoute s id success t1 t2 t3 f).1 =
      { code := 404, success := false } ∧
    (manualRunRoute s id success t1 t2 t3 f).2 = s ∧
    (manualRunRoute s id success t1 t2 t3 f).2.logs = s.logs := by
  have hf := findTask_eq_none h
  refine ⟨?_, ?_, ?_⟩ <;> simp only [manualRunRoute, hf]

/-- The one-task store of the claim C6 witness: only id 1 is stored. -/
def wStoreC6 : Store := { tasks := [mkTask 1 none none], logs := [], nextLogId := 1 }

/-- Claim C6 witness: the theorem applied to a store holding only task
id 1, with the manual run requested for id 2. -/
theorem manualRun_unknownId_noEffect_witness :
    (manualRunRoute wStoreC6 2 true 0 0 0 noFaults).1 =
      { code := 404, success := false } ∧
    (manualRunRoute wStoreC6 2 true 0 0 0 noFaults).2 = wStoreC6 ∧
    (manualRunRoute wStoreC6 2 true 0 0 0 noFaults).2.logs = wStoreC6.logs :=
  manualRun_unknownId_noEffect wStoreC6 2 true 0 0 0 noFaults (by decide)

/-- The one-task store of the claim C7 counterexample and witness:
only id 6 is stored. -/
def storeC7 : Store := { tasks := [mkTask 6 none none], logs := [], nextLogId := 1 }

/-- Claim C7 counterexample: DELETE of id 2, which matches no stored
task, answers HTTP 200 with the `{success:true}` body — not 404: the
SQL DELETE simply affects zero rows and the handler never checks. -/
theorem delete_unknownId_success_cex :
    (deleteRoute storeC7 2).1.code = 200 ∧
    (deleteRoute storeC7 2).1.success = true ∧
    ¬ (deleteRoute storeC7 2).1.code = 404 := by
  exact ⟨rfl, rfl, by decide⟩

/-- Claim C7 as amended: on an id matching no stored task, the
manual-run route does answer 404, but the DELETE route answers
HTTP 200 with the success body and leaves the store unchanged (the
SQL DELETE is a no-op). -/
theorem apiRoutes_unknownId (s : Store) (id : Nat) (success : Bool)
    (t1 t2 t3 : Nat) (f : Faults) (h : ∀ t ∈ s.tasks, ¬ t.id = id) :
    (manualRunRoute s id success t1 t2 t3 f).1.code = 404 ∧
    (deleteRoute s id).1 = { code := 200, success := true } ∧
    (deleteRoute s id).2 = s := by
  have hany : s.tasks.any (fun t => t.id == id) = false := by
    rw [List.any_eq_false]
    intro t ht
    simpa using h t ht
  have hcond : ((s.tasks.any (fun t => t.id == id)) &&
      (s.logs.any (fun l => l.task_id == id))) = false := by
    rw [hany, Bool.false_and]
  have hred : deleteRoute s id =
      ({ code := 200, success := true },
       { s with tasks := s.tasks.filter (fun t => !(t.id == id)) }) := by
    simp only [deleteRoute, hcond, Bool.false_eq_true, if_false]
  refine ⟨?_, ?_, ?_⟩
  · have hf := findTask_eq_none h
    simp only [manualRunRoute, hf]
  · rw [hred]
  · rw [hred]
    show ({ s with tasks := s.tasks.filter (fun t => !(t.id == id)) } : Store) = s
    have hself : s.tasks.filter (fun t => !(t.id == id)) = s.tasks :=
      List.filter_eq_self.mpr (fun a ha => by simpa using h a ha)
    rw [hself]

/-- Claim C7 witness: the amended theorem applied to the one-task
store with the unknown id 2. -/
theorem apiRoutes_unknownId_witness :
    (manualRunRoute storeC7 2 true 0 0 0 noFaults).1.code = 404 ∧
    (deleteRoute storeC7 2).1 = { code := 200, success := true } ∧
    (deleteRoute storeC7 2).2 = storeC7 :=
  apiRoutes_unknownId storeC7 2 true 0 0 0 noFaults (by decide)

/-! Claims C9 and C10: the logs listing and the delete route. -/

/-- Every row of the logs listing comes from a stored log entry whose
owning task still exists, and carries the name of that task. -/
theorem mem_getLogs {s : Store} {j : JoinedLog} (hj : j ∈ getLogs s) :
    j.entry ∈ s.logs ∧ hasTask s j.entry = true ∧
    j.task_name = taskName s j.entry.task_id := by
  rw [getLogs] at hj
  simp only [List.mem_map] at hj
  obtain ⟨l, hl, rfl⟩ := hj
  have hl2 : l ∈ (s.logs.filter (fun x => hasTask s x)).insertionSort newestFirst :=
    (List.take_sublist _ _).subset hl
  have hl3 : l ∈ s.logs.filter (fun x => hasTask s x) :=
    (List.perm_insertionSort newestFirst _).mem_iff.mp hl2
  have hm := List.mem_filter.mp hl3
  exact ⟨hm.1, hm.2, rfl⟩

/-- Claim C9 (confirmed): on every store, the `GET /api/logs` response
holds exactly `min 50 n` rows, where `n` counts the log entries whose
owning task still exists (the inner join), ordered newest first
(non-increasing timestamps); every row is a stored log entry joined
with the name of its owning task; the kept rows are the newest of the
joined set — any joined entry absent from the response is no newer
than every responded entry — and when the joined set holds at most 50
entries, every one of them appears. -/
theorem getLogs_latest_newestFirst_joined (s : Store) :
    (getLogs s).length = min 50 (s.logs.filter (fun x => hasTask s x)).length ∧
    List.Pairwise (fun a b => b.entry.timestamp ≤ a.entry.timestamp) (getLogs s) ∧
    (∀ j ∈ getLogs s, j.entry ∈ s.logs ∧ hasTask s j.entry = true ∧
      j.task_name = taskName s j.entry.task_id) ∧
    (∀ l ∈ s.logs, hasTask s l = true → (∀ j ∈ getLogs s, ¬ j.entry = l) →
      ∀ j ∈ getLogs s, l.timestamp ≤ j.entry.timestamp) ∧
    ((s.logs.filter (fun x => hasTask s x)).length ≤ 50 →
      ∀ l ∈ s.logs, hasTask s l = true →
        ({ entry := l, task_name := taskName s l.task_id } : JoinedLog)
          ∈ getLogs s) := by
  have hperm := List.perm_insertionSort newestFirst (s.logs.filter (fun x => hasTask s x))
  have hsor := List.sorted_insertionSort newestFirst
    (s.logs.filter (fun x => hasTask s x))
  refine ⟨?_, ?_, fun j hj => mem_getLogs hj, ?_, ?_⟩
  · rw [getLogs, List.length_map, List.length_take, hperm.length_eq]
  · have htake : List.Pairwise newestFirst
        (((s.logs.filter (fun x => hasTask s x)).insertionSort newestFirst).take 50) :=
      List.Pairwise.sublist (List.take_sublist _ _) hsor
    exact htake.map _ (fun a b hab => hab)
  · intro l hl hlh hnot j hj
    have hls : l ∈ (s.logs.filter (fun x => hasTask s x)).insertionSort newestFirst :=
      hperm.mem_iff.mpr (List.mem_filter.mpr ⟨hl, hlh⟩)
    have hlnt : l ∉
        (((s.logs.filter (fun x => hasTask s x)).insertionSort newestFirst).take 50) := by
      intro hin
      refine hnot { entry := l, task_name := taskName s l.task_id } ?_ rfl
      rw [getLogs]
      exact List.mem_map_of_mem _ hin
    have hsplit : l ∈
        (((s.logs.filter (fun x => hasTask s x)).insertionSort newestFirst).take 50) ++
          (((s.logs.filter (fun x => hasTask s x)).insertionSort newestFirst).drop 50) := by
      rw [List.take_append_drop]
      exact hls
    have hld : l ∈
        (((s.logs.filter (fun x => hasTask s x)).insertionSort newestFirst).drop 50) := by
      rcases List.mem_append.mp hsplit with hcase | hcase
      · exact absurd hcase hlnt
      · exact hcase
    have hpair : List.Pairwise newestFirst
        ((((s.logs.filter (fun x => hasTask s x)).insertionSort newestFirst).take 50) ++
          (((s.logs.filter (fun x => hasTask s x)).insertionSort newestFirst).drop 50)) := by
      rw [List.take_append_drop]
      exact hsor
    have hcross := (List.pairwise_append.mp hpair).2.2
    rw [getLogs] at hj
    simp only [List.mem_map] at hj
    obtain ⟨x, hx, rfl⟩ := hj
    exact hcross x hx l hld
  · intro hlen l hl hlh
    have hsortlen :
        ((s.logs.filter (fun x => hasTask s x)).insertionSort newestFirst).length ≤ 50 := by
      rw [hperm.length_eq]
      exact hlen
    rw [getLogs, List.take_of_length_le hsortlen]
    exact List.mem_map_of_mem _
      (hperm.mem_iff.mpr (List.mem_filter.mpr ⟨hl, hlh⟩))

/-- The store of the claim C10 counterexample: task id 1 owns one log
row. -/
def storeC10 : Store :=
  { tasks := [mkTask 1 none none],
    logs := [{ id := 1, task_id := 1, timestamp := 0, status := "INICIADO",
               message := "inicio", report := none }],
    nextLogId := 2 }

/-- Claim C10 counterexample: deleting task id 1, which owns a log
row, does not remove the task row and hide its log entries — the
enforced foreign key makes the SQL DELETE throw, the handler answers
HTTP 500 with an error body, the task row survives and the store is
unchanged, so the claimed orphaned-then-hidden scenario never
happens. -/
theorem delete_ownedLogs_fkFails_cex :
    (deleteRoute storeC10 1).1 = { code := 500, success := false } ∧
    (deleteRoute storeC10 1).2 = storeC10 ∧
    mkTask 1 none none ∈ (deleteRoute storeC10 1).2.tasks := by
  exact ⟨rfl, rfl, by decide⟩

/-- Claim C10 as amended: the DELETE route never cascades — on both
outcomes the log table and its AUTOINCREMENT counter are unchanged.
When some stored task carries the id and some log row references it,
the enforced foreign key makes the DELETE throw: the handler answers
500 and the whole store is unchanged.  Only when no such pair exists
does the route answer `{success:true}`: then no task row with the id
remains and, because the listing inner-joins logs with existing
tasks, no row of `GET /api/logs` on the resulting store belongs to
the deleted id (log rows referencing it, which can only be
pre-existing orphans, stay stored but are not listed). -/
theorem delete_fkGuard_noCascade (s : Store) (id : Nat) :
    (deleteRoute s id).2.logs = s.logs ∧
    (deleteRoute s id).2.nextLogId = s.nextLogId ∧
    (((s.tasks.any (fun t => t.id == id)) &&
        (s.logs.any (fun l => l.task_id == id))) = true →
      (deleteRoute s id).1 = { code := 500, success := false } ∧
      (deleteRoute s id).2 = s) ∧
    (((s.tasks.any (fun t => t.id == id)) &&
        (s.logs.any (fun l => l.task_id == id))) = false →
      (deleteRoute s id).1 = { code := 200, success := true } ∧
      (∀ t ∈ (deleteRoute s id).2.tasks, ¬ t.id = id) ∧
      (∀ j ∈ getLogs (deleteRoute s id).2, ¬ j.entry.task_id = id)) := by
  cases hcond : ((s.tasks.any (fun t => t.id == id)) &&
      (s.logs.any (fun l => l.task_id == id))) with
  | true =>
      have hred : deleteRoute s id = ({ code := 500, success := false }, s) := by
        simp only [deleteRoute, hcond, if_true]
      rw [hred]
      exact ⟨rfl, rfl, fun _ => ⟨rfl, rfl⟩, fun hfalse => absurd hfalse (by decide)⟩
  | false =>
      have hred : deleteRoute s id =
          ({ code := 200, success := true },
           { s with tasks := s.tasks.filter (fun t => !(t.id == id)) }) := by
        simp only [deleteRoute, hcond, Bool.false_eq_true, if_false]
      rw [hred]
      refine ⟨rfl, rfl, fun htrue => absurd htrue (by decide), fun _ => ⟨rfl, ?_, ?_⟩⟩
      · intro t ht
        have hm := List.mem_filter.mp ht
        simpa using hm.2
      · intro j hj hjid
        obtain ⟨-, hhas, -⟩ := mem_getLogs hj
        simp only [hasTask, List.any_eq_true, beq_iff_eq] at hhas
        obtain ⟨t, ht, hteq⟩ := hhas
        have hne : ¬ t.id = id := by
          have hm := List.mem_filter.mp ht
          simpa using hm.2
        exact hne (hteq.trans hjid)

end SafeGuard
